import Mathlib

/-!
Shallow embedding of the NESOP-Store client code (cart.html, scripts/auth.js,
scripts/store.js, admin.html, the shared utility extractUsername) together
with a spec-modelled Ledger for the reserve/commit contract that has no
implementation under the repository sources.  JavaScript numbers are modelled
as integers; every concrete input used below is exact under both.  JavaScript
strings are modelled as Lean strings, with the string operations the code
uses (split, includes, trim, toLowerCase) written structurally over the
character list so that they evaluate inside the kernel.
-/

namespace NesopStore

/-! ## Character-list helpers mirroring the JavaScript string operations -/

/-- JavaScript s.includes(c) on the character list. -/
def jsIncludes (l : List Char) (c : Char) : Bool :=
  l.any (fun x => x == c)

/-- JavaScript s.split(c)[0]: the characters strictly before the first
occurrence of c (the whole string when c is absent). -/
def splitSeg0 (c : Char) (l : List Char) : List Char :=
  l.takeWhile (fun x => x != c)

/-- JavaScript s.split(c)[1]: the characters strictly between the first and
the second occurrence of c (up to the end when there is no second one). -/
def splitSeg1 (c : Char) (l : List Char) : List Char :=
  ((l.dropWhile (fun x => x != c)).drop 1).takeWhile (fun x => x != c)

/-- JavaScript s.trim() : leading and trailing whitespace removed. -/
def jsTrim (s : String) : String :=
  ⟨((s.data.dropWhile Char.isWhitespace).reverse.dropWhile
      Char.isWhitespace).reverse⟩

/-- JavaScript s.toLowerCase(), restricted as Char.toLower to ASCII case
mapping, which covers every username in play. -/
def jsToLower (s : String) : String :=
  ⟨s.data.map Char.toLower⟩

/-! ## Username extraction (unnamed part_006, shared utils)

JavaScript source:
  if not usernameOrEmail: return the empty string
  if it contains an at sign: return split at the at sign, first part
  if it contains a backslash: return split at the backslash, second part
  otherwise return it as is
-/

/-- Embedding of extractUsername from the shared utils file. -/
def extractUsername (s : String) : String :=
  if s.data.isEmpty then ""
  else if jsIncludes s.data '@' then ⟨splitSeg0 '@' s.data⟩
  else if jsIncludes s.data '\\' then ⟨splitSeg1 '\\' s.data⟩
  else s

/-- Modelled from the spec, section 4.1: the Username Normalizer is said to
strip the domain suffix or prefix and lowercase the remainder.  This
spec-worded definition is kept separate so it can be compared with the
source function extractUsername. -/
def specNormalize (s : String) : String :=
  jsToLower (extractUsername s)

example : extractUsername "jo@co.com" = "jo" := by decide
example : extractUsername "CO\\jo" = "jo" := by decide
example : extractUsername "jo" = "jo" := by decide
example : extractUsername "ALICE" = "ALICE" := by decide
example : specNormalize "ALICE" = "alice" := by decide
example : jsTrim " alice" = "alice" := by decide

/-! ## Data model

User records as served by GET /api/users (the full row, password and
balance included, is sent to the client).  Item rows as served by
GET /api/items; cart entries are client-side copies of Item objects kept in
localStorage, so a cart line carries whatever price/availability fields the
client stored. -/

structure UserRec where
  username : String
  password : String
  balance : Int
  is_admin : Bool
deriving DecidableEq, Repr

structure Item where
  item : String
  description : String
  price : Int
  quantity : Int
  sold_out : Bool
  unlisted : Bool
deriving DecidableEq, Repr

/-- The order artifact cart.html generates and downloads: one line per cart
entry with the client-held price, and the client-computed total. -/
structure Order where
  user : String
  lines : List (String × Int)
  total : Int
deriving DecidableEq, Repr

/-! ## cart.html helpers -/

/-- renderCart accumulates total as the sum of parseFloat(item.price) over
the client cart entries. -/
def cartTotal (cart : List Item) : Int :=
  (cart.map (fun i => i.price)).sum

/-- getUserBalance: find the first user with the given username and return
its balance, 0 when absent. -/
def getUserBalance (users : List UserRec) (username : String) : Int :=
  match users.find? (fun u => u.username == username) with
  | some u => u.balance
  | none => 0

/-- setUserBalance: overwrite the balance of the first user row matching the
username; no-op when absent. -/
def setUserBalance : List UserRec → String → Int → List UserRec
  | [], _, _ => []
  | r :: rs, u, b =>
      if r.username == u then { r with balance := b } :: rs
      else r :: setUserBalance rs u b

/-- The order text assembled by the checkout click handler, as structured
data: the username, each cart line with its client price, and the total. -/
def mkOrder (username : String) (cart : List Item) : Order :=
  ⟨username, cart.map (fun i => (i.item, i.price)), cartTotal cart⟩

/-! ## The checkout click handler of cart.html

The handler fetches /api/users, reads the current balance from that
snapshot, rejects when balance < total, otherwise computes the new balance,
generates and downloads the order file, and only then POSTs
/api/update-balance with the client-computed new balance.  Inventory is
never read or written.  The phases are split so that the interleaving of two
concurrent handlers can be expressed. -/

/-- What one client computes from its snapshot of the user list: whether the
purchase goes ahead, the update-balance request body it will send, and the
order artifacts it downloads before sending it. -/
structure ClientOutcome where
  ok : Bool
  write : Option (String × Int)
  orders : List Order
deriving DecidableEq, Repr

def clientCheckout (snapshot : List UserRec) (username : String)
    (cart : List Item) : ClientOutcome :=
  let total := cartTotal cart
  let balance := getUserBalance snapshot username
  if balance < total then ⟨false, none, []⟩
  else ⟨true, some (username, balance - total), [mkOrder username cart]⟩

/-- Server handling of POST /api/update-balance: store the client-supplied
newBalance on the named row. -/
def applyWrite (server : List UserRec) : Option (String × Int) → List UserRec
  | none => server
  | some (u, b) => setUserBalance server u b

inductive CheckoutResult where
  | insufficientBalance
  | orderPlaced
  | orderPlacedPersistFailed
deriving DecidableEq, Repr

structure CheckoutOutcome where
  result : CheckoutResult
  serverUsers : List UserRec
  write : Option (String × Int)
  orders : List Order
  items : List Item
  cartAfter : List Item
deriving DecidableEq, Repr

/-- One full checkout invocation.  persistOk says whether the
/api/update-balance call succeeds; on failure the server state is untouched
but the order file has already been downloaded and the cart is kept. -/
def checkout (server : List UserRec) (items : List Item) (username : String)
    (cart : List Item) (persistOk : Bool) : CheckoutOutcome :=
  let c := clientCheckout server username cart
  match c.write with
  | none => ⟨.insufficientBalance, server, none, [], items, cart⟩
  | some w =>
      if persistOk then
        ⟨.orderPlaced, applyWrite server (some w), some w, c.orders, items, []⟩
      else
        ⟨.orderPlacedPersistFailed, server, some w, c.orders, items, cart⟩

/-- Two checkout invocations for the same user racing: both handlers fetch
the same snapshot before either write lands, then the two update-balance
writes are applied in order. -/
structure RaceOutcome where
  resA : CheckoutResult
  resB : CheckoutResult
  serverUsers : List UserRec
  items : List Item
  orders : List Order
deriving DecidableEq, Repr

def racyDoubleCheckout (server : List UserRec) (items : List Item)
    (username : String) (cartA cartB : List Item) : RaceOutcome :=
  let a := clientCheckout server username cartA
  let b := clientCheckout server username cartB
  let s1 := applyWrite server a.write
  let s2 := applyWrite s1 b.write
  ⟨if a.ok then .orderPlaced else .insufficientBalance,
   if b.ok then .orderPlaced else .insufficientBalance,
   s2, items, a.orders ++ b.orders⟩

/-! ## store.js rendering (availability handling lives only here) -/

/-- renderItems filters out unlisted items before rendering. -/
def visibleItems (items : List Item) : List Item :=
  items.filter (fun i => !i.unlisted)

/-- renderItems renders the add-to-cart button disabled exactly when the
item is sold_out, and attaches no click handler to a disabled button. -/
def addToCartEnabled (i : Item) : Bool :=
  !i.sold_out

/-! ## Login (scripts/auth.js, API-based version, also unnamed part_012)

The submit handler trims the typed username, fetches the full user list
from GET /api/users, and looks for a record whose username and password
both match with the JavaScript strict-equality operator. -/

def loginFind (users : List UserRec) (username password : String) :
    Option UserRec :=
  users.find? (fun u => u.username == username && u.password == password)

def loginAttempt (users : List UserRec) (rawUsername password : String) :
    Option UserRec :=
  loginFind users (jsTrim rawUsername) password

/-! ## Admin page (admin.html)

On page load the script POSTs /api/check-admin with the current username and
leaves the page when the durable row is not an admin.  Every later mutation
(PUT/POST/DELETE on /api/users and /api/items) sends only the target row
fields: the request carries no caller identity, so nothing about the caller
is re-checked when a mutation is issued. -/

/-- Server side of POST /api/check-admin: the is_admin flag of the durable
row with that username, false when the row is absent. -/
def checkAdminDurable (users : List UserRec) (username : String) : Bool :=
  match users.find? (fun r => r.username == username) with
  | some r => r.is_admin
  | none => false

/-- A loaded admin page: all it retains is which localStorage user loaded
it. -/
structure AdminSession where
  currentUser : String
deriving DecidableEq, Repr

/-- The page-load guard: the page stays loaded only when the durable row is
an admin at load time. -/
def adminPageLoad (users : List UserRec) (currentUser : String) :
    Option AdminSession :=
  if checkAdminDurable users currentUser then some ⟨currentUser⟩ else none

/-- A balance edit issued from a loaded admin page (PUT /api/users): the
body names only the target row, so the mutation applies to the current
durable state regardless of the current flag of the caller. -/
def adminMutateSetBalance (_sess : AdminSession) (users : List UserRec)
    (target : String) (value : Int) : List UserRec :=
  setUserBalance users target value

/-- An is_admin edit issued from a loaded admin page (PUT /api/users),
e.g. a demotion. -/
def setAdminFlag : List UserRec → String → Bool → List UserRec
  | [], _, _ => []
  | r :: rs, u, b =>
      if r.username == u then { r with is_admin := b } :: rs
      else r :: setAdminFlag rs u b

/-- The storefront admin-link decision in checkLogin: it reads only the
cached localStorage flag nesop_user_admin and never consults the server. -/
def showAdminPanelLink (cachedAdminFlag : String) : Bool :=
  cachedAdminFlag == "true"

/-! ## Spec-modelled Ledger (spec sections 4.5 and 4.6)

Modelled from the spec: no Inventory and Balance Ledger, reserve, commit or
reservation token exists under the repository sources; the only checkout
code present is the cart.html client above, a caller of plain balance
persistence.  The definitions below follow the words of section 4.5:
reserve checks balance and per-item quantity against current state, debits
and decrements atomically and hands back a token; commit turns the token
into an Order and is idempotent. -/

structure Reservation where
  userId : String
  lines : List (String × Int)
deriving DecidableEq, Repr

structure LedgerState where
  balances : List (String × Int)
  quantities : List (String × Int)
  pending : List (Nat × Reservation)
  orders : List (Nat × Order)
  nextToken : Nat
deriving DecidableEq, Repr

def linesTotal (lines : List (String × Int)) : Int :=
  (lines.map (fun l => l.2)).sum

def lookupAmount (l : List (String × Int)) (k : String) : Int :=
  match l.find? (fun p => p.1 == k) with
  | some p => p.2
  | none => 0

def setAmount : List (String × Int) → String → Int → List (String × Int)
  | [], k, v => [(k, v)]
  | p :: ps, k, v =>
      if p.1 == k then (k, v) :: ps else p :: setAmount ps k v

/-- The distinct item names a reservation touches. -/
def lineItems (lines : List (String × Int)) : List String :=
  (lines.map (fun l => l.1)).eraseDups

/-- How many units of one item the reservation requests. -/
def countItem (lines : List (String × Int)) (i : String) : Int :=
  ((lines.filter (fun l => l.1 == i)).length : Int)

/-- The items whose current quantity cannot cover the reservation. -/
def shortItems (qs : List (String × Int)) (lines : List (String × Int)) :
    List String :=
  (lineItems lines).filter (fun i => lookupAmount qs i < countItem lines i)

/-- Decrement each requested item by the number of units requested. -/
def decrementAll (qs : List (String × Int)) (lines : List (String × Int)) :
    List (String × Int) :=
  (lineItems lines).foldl
    (fun acc i => setAmount acc i (lookupAmount acc i - countItem lines i)) qs

inductive ReserveResult where
  | reserved (token : Nat) (st : LedgerState)
  | insufficientBalance
  | insufficientInventory (items : List String)
deriving DecidableEq, Repr

/-- Modelled from the spec: reserve evaluates balance and quantity
sufficiency against current durable state and, when both hold, debits the
balance, decrements the quantities and records a pending reservation under
a fresh token, all in one step. -/
def Ledger.reserve (st : LedgerState) (userId : String)
    (lines : List (String × Int)) : ReserveResult :=
  let total := linesTotal lines
  if lookupAmount st.balances userId < total then .insufficientBalance
  else if shortItems st.quantities lines ≠ [] then
    .insufficientInventory (shortItems st.quantities lines)
  else
    .reserved st.nextToken
      { balances := setAmount st.balances userId
          (lookupAmount st.balances userId - total)
        quantities := decrementAll st.quantities lines
        pending := (st.nextToken, ⟨userId, lines⟩) :: st.pending
        orders := st.orders
        nextToken := st.nextToken + 1 }

/-- Modelled from the spec: commit turns a pending reservation into an
immutable Order; a second commit with the same token returns the original
Order without re-mutating state. -/
def Ledger.commit (st : LedgerState) (token : Nat) :
    Option (Order × LedgerState) :=
  match st.orders.lookup token with
  | some o => some (o, st)
  | none =>
      match st.pending.lookup token with
      | some r =>
          let o : Order := ⟨r.userId, r.lines, linesTotal r.lines⟩
          some (o,
            { st with
                pending := st.pending.filter (fun p => p.1 != token)
                orders := (token, o) :: st.orders })
      | none => none

/-- The number of Order rows recorded under one token. -/
def orderRowCount (st : LedgerState) (token : Nat) : Nat :=
  (st.orders.filter (fun p => p.1 == token)).length

/-! ## Supporting lemmas -/

/-- setUserBalance only rewrites the balance of the first matching row, so
searching for that username afterwards finds the same row with the new
balance. -/
theorem find?_setUserBalance (users : List UserRec) (u : String) (b : Int) :
    (setUserBalance users u b).find? (fun r => r.username == u) =
      (users.find? (fun r => r.username == u)).map
        (fun r => { r with balance := b }) := by
  induction users with
  | nil => rfl
  | cons r rs ih =>
      by_cases h : r.username == u
      · simp [setUserBalance, h]
      · simp [setUserBalance, h, ih]

theorem find?_isSome_setUserBalance (users : List UserRec) (u : String)
    (b : Int) :
    ((setUserBalance users u b).find? (fun r => r.username == u)).isSome =
      (users.find? (fun r => r.username == u)).isSome := by
  rw [find?_setUserBalance]
  cases users.find? (fun r => r.username == u) <;> rfl

/-- Reading a balance back after writing it, for a user whose row exists. -/
theorem getUserBalance_setUserBalance (users : List UserRec) (u : String)
    (b : Int) (h : (users.find? (fun r => r.username == u)).isSome) :
    getUserBalance (setUserBalance users u b) u = b := by
  unfold getUserBalance
  rw [find?_setUserBalance]
  cases hf : users.find? (fun r => r.username == u) with
  | none => rw [hf] at h; simp at h
  | some r => simp

/-- A key that lookup cannot find heads no association pair at all. -/
theorem filter_key_eq_nil_of_lookup_none {l : List (Nat × Order)} {k : Nat}
    (h : l.lookup k = none) : l.filter (fun p => p.1 == k) = [] := by
  rw [List.lookup_eq_none_iff] at h
  rw [List.filter_eq_nil_iff]
  intro p hp
  have h2 := h p hp
  rw [bne_iff_ne] at h2
  simp only [beq_iff_eq]
  exact fun e => h2 e.symm

/-! ## Claims -/

/-- C5: for every user and cart, when the current balance is strictly below
the cart total, the checkout handler reports insufficient balance, issues
no update-balance request, produces no order artifact, and leaves the
server state unchanged. -/
theorem checkout_insufficient_balance_rejects (server : List UserRec)
    (items : List Item) (username : String) (cart : List Item)
    (persistOk : Bool)
    (h : getUserBalance server username < cartTotal cart) :
    (checkout server items username cart persistOk).result =
        CheckoutResult.insufficientBalance ∧
    (checkout server items username cart persistOk).serverUsers = server ∧
    (checkout server items username cart persistOk).write = none ∧
    (checkout server items username cart persistOk).orders = [] := by
  unfold checkout clientCheckout
  simp [h]

/-- Witness for C5 at the spec scenario: balance 100, cart totalling 150,
rejected with the balance kept at 100. -/
theorem checkout_insufficient_balance_rejects_witness :
    getUserBalance [⟨"u", "p", 100, false⟩] "u" <
        cartTotal [⟨"snack", "", 150, 1, false, false⟩] ∧
    (checkout [⟨"u", "p", 100, false⟩] [] "u"
        [⟨"snack", "", 150, 1, false, false⟩] true).result =
      CheckoutResult.insufficientBalance ∧
    (checkout [⟨"u", "p", 100, false⟩] [] "u"
        [⟨"snack", "", 150, 1, false, false⟩] true).serverUsers =
      [⟨"u", "p", 100, false⟩] :=
  ⟨by decide,
   (checkout_insufficient_balance_rejects _ _ _ _ _ (by decide)).1,
   (checkout_insufficient_balance_rejects _ _ _ _ _ (by decide)).2.1⟩

/-- C1 counterexample: a checkout whose balance-persistence call fails has
already generated and downloaded the order artifact, so an Order exists for
a checkout whose server-side persistence did not succeed. -/
theorem checkout_atomicity_counterexample :
    (checkout [⟨"u", "p", 100, false⟩] [⟨"mug", "", 10, 3, false, false⟩]
        "u" [⟨"mug", "", 10, 3, false, false⟩] false).result =
      CheckoutResult.orderPlacedPersistFailed ∧
    (checkout [⟨"u", "p", 100, false⟩] [⟨"mug", "", 10, 3, false, false⟩]
        "u" [⟨"mug", "", 10, 3, false, false⟩] false).orders =
      [⟨"u", [("mug", 10)], 10⟩] := by decide

/-- C1 amended: when the persistence step fails, the server user rows and
the item store are indeed unchanged (inventory is never touched at all) and
a rejected cart produces no artifact; but any checkout that passes the
balance test downloads the order file before the persistence call, so the
Order artifact exists even when server-side persistence fails. -/
theorem checkout_failure_effects (server : List UserRec) (items : List Item)
    (username : String) (cart : List Item) :
    (checkout server items username cart false).serverUsers = server ∧
    (checkout server items username cart false).items = items ∧
    (getUserBalance server username < cartTotal cart →
      (checkout server items username cart false).orders = []) ∧
    (cartTotal cart ≤ getUserBalance server username →
      (checkout server items username cart false).orders =
        [mkOrder username cart]) := by
  unfold checkout clientCheckout
  by_cases h : getUserBalance server username < cartTotal cart
  · refine ⟨by simp [h], by simp [h], by simp [h], ?_⟩
    intro h2
    exact (not_le.mpr h h2).elim
  · refine ⟨by simp [h], by simp [h], ?_, by simp [h]⟩
    intro h2
    exact (h h2).elim

/-- Witness for C1 amended: a sufficient balance, a failing persistence
call, and the artifact already produced. -/
theorem checkout_failure_effects_witness :
    cartTotal [⟨"mug", "", 10, 3, false, false⟩] ≤
        getUserBalance [⟨"u", "p", 100, false⟩] "u" ∧
    (checkout [⟨"u", "p", 100, false⟩] [⟨"mug", "", 10, 3, false, false⟩]
        "u" [⟨"mug", "", 10, 3, false, false⟩] false).orders =
      [mkOrder "u" [⟨"mug", "", 10, 3, false, false⟩]] :=
  ⟨by decide, (checkout_failure_effects _ _ _ _).2.2.2 (by decide)⟩

/-- C2 counterexample: the item store prices Mug at 10, the client cart
carries a price field of 1, and the debit is 1, not the authoritative
10. -/
theorem checkout_client_price_counterexample :
    (checkout [⟨"u", "p", 100, false⟩] [⟨"mug", "d", 10, 3, false, false⟩]
        "u" [⟨"mug", "d", 1, 3, false, false⟩] true).write =
      some ("u", 99) ∧
    (100 : Int) - 10 ≠ 99 := by decide

/-- C2 amended: the amount debited equals the sum of the client-supplied
price fields of the cart lines, and nothing about the checkout outcome
depends on the Item store: the stored authoritative prices have no
influence. -/
theorem checkout_total_ignores_item_store (server : List UserRec)
    (itemsA itemsB : List Item) (username : String) (cart : List Item)
    (persistOk : Bool) :
    (checkout server itemsA username cart persistOk).result =
      (checkout server itemsB username cart persistOk).result ∧
    (checkout server itemsA username cart persistOk).write =
      (checkout server itemsB username cart persistOk).write ∧
    (cartTotal cart ≤ getUserBalance server username →
      (checkout server itemsA username cart persistOk).write =
        some (username, getUserBalance server username - cartTotal cart)) := by
  unfold checkout clientCheckout
  by_cases h : getUserBalance server username < cartTotal cart
  · refine ⟨by simp [h], by simp [h], ?_⟩
    intro h2
    exact (not_le.mpr h h2).elim
  · cases persistOk <;> exact ⟨by simp [h], by simp [h], fun _ => by simp [h]⟩

/-- Witness for C2 amended: the debit is the client-held 1, computed with
the store row priced 10 present. -/
theorem checkout_total_ignores_item_store_witness :
    cartTotal [⟨"mug", "d", 1, 3, false, false⟩] ≤
        getUserBalance [⟨"u", "p", 100, false⟩] "u" ∧
    (checkout [⟨"u", "p", 100, false⟩] [⟨"mug", "d", 10, 3, false, false⟩]
        "u" [⟨"mug", "d", 1, 3, false, false⟩] true).write =
      some ("u", getUserBalance [⟨"u", "p", 100, false⟩] "u" -
        cartTotal [⟨"mug", "d", 1, 3, false, false⟩]) :=
  ⟨by decide,
   (checkout_total_ignores_item_store [⟨"u", "p", 100, false⟩]
      [⟨"mug", "d", 10, 3, false, false⟩] [] "u"
      [⟨"mug", "d", 1, 3, false, false⟩] true).2.2 (by decide)⟩

/-- C3 counterexample: an item that is sold_out with quantity 0 sits in a
stale client cart; checkout succeeds anyway, debits its price, and no
quantity changes because checkout never touches inventory. -/
theorem sold_out_purchase_counterexample :
    (checkout [⟨"u", "p", 100, false⟩] [⟨"mug", "", 10, 0, true, false⟩]
        "u" [⟨"mug", "", 10, 0, true, false⟩] true).result =
      CheckoutResult.orderPlaced ∧
    (checkout [⟨"u", "p", 100, false⟩] [⟨"mug", "", 10, 0, true, false⟩]
        "u" [⟨"mug", "", 10, 0, true, false⟩] true).write =
      some ("u", 90) ∧
    (checkout [⟨"u", "p", 100, false⟩] [⟨"mug", "", 10, 0, true, false⟩]
        "u" [⟨"mug", "", 10, 0, true, false⟩] true).items =
      [⟨"mug", "", 10, 0, true, false⟩] := by decide

/-- C3 amended: availability is enforced only at storefront render time:
an unlisted item is filtered out and a sold_out item gets a disabled
add-to-cart button, so neither can be added at render time; checkout itself
performs no availability check and never mutates the item store. -/
theorem availability_checked_only_at_render (items : List Item) (i : Item)
    (server : List UserRec) (username : String) (cart : List Item)
    (persistOk : Bool) (h : i.sold_out = true ∨ i.unlisted = true) :
    ¬(i ∈ visibleItems items ∧ addToCartEnabled i = true) ∧
    (checkout server items username cart persistOk).items = items := by
  constructor
  · rintro ⟨hm, he⟩
    cases h with
    | inl hs =>
        rw [addToCartEnabled, hs] at he
        simp at he
    | inr hu =>
        have hf := (List.mem_filter.mp hm).2
        rw [hu] at hf
        simp at hf
  · unfold checkout clientCheckout
    by_cases hb : getUserBalance server username < cartTotal cart
    · simp [hb]
    · cases persistOk <;> simp [hb]

/-- Witness for C3 amended: the concrete sold-out Mug cannot be added at
render time. -/
theorem availability_checked_only_at_render_witness :
    (⟨"mug", "", 10, 0, true, false⟩ : Item).sold_out = true ∧
    ¬((⟨"mug", "", 10, 0, true, false⟩ : Item) ∈
        visibleItems [⟨"mug", "", 10, 0, true, false⟩] ∧
      addToCartEnabled ⟨"mug", "", 10, 0, true, false⟩ = true) :=
  ⟨rfl,
   (availability_checked_only_at_render [⟨"mug", "", 10, 0, true, false⟩]
      ⟨"mug", "", 10, 0, true, false⟩ [] "u" [] true (Or.inl rfl)).1⟩

/-- C4 counterexample: two checkouts race for the last Mug (quantity 1):
both succeed, neither receives an insufficient-inventory error, the final
quantity is still 1 rather than 0, and the balance shows a lost update:
one debit of 10 instead of two. -/
theorem concurrent_checkout_counterexample :
    (racyDoubleCheckout [⟨"u", "p", 20, false⟩]
        [⟨"mug", "", 10, 1, false, false⟩] "u"
        [⟨"mug", "", 10, 1, false, false⟩]
        [⟨"mug", "", 10, 1, false, false⟩]).resA =
      CheckoutResult.orderPlaced ∧
    (racyDoubleCheckout [⟨"u", "p", 20, false⟩]
        [⟨"mug", "", 10, 1, false, false⟩] "u"
        [⟨"mug", "", 10, 1, false, false⟩]
        [⟨"mug", "", 10, 1, false, false⟩]).resB =
      CheckoutResult.orderPlaced ∧
    getUserBalance (racyDoubleCheckout [⟨"u", "p", 20, false⟩]
        [⟨"mug", "", 10, 1, false, false⟩] "u"
        [⟨"mug", "", 10, 1, false, false⟩]
        [⟨"mug", "", 10, 1, false, false⟩]).serverUsers "u" = 10 ∧
    (racyDoubleCheckout [⟨"u", "p", 20, false⟩]
        [⟨"mug", "", 10, 1, false, false⟩] "u"
        [⟨"mug", "", 10, 1, false, false⟩]
        [⟨"mug", "", 10, 1, false, false⟩]).items =
      [⟨"mug", "", 10, 1, false, false⟩] := by decide

/-- C4 amended: under the read-then-write race where both handlers fetch
the same snapshot, every checkout whose cart the snapshot balance covers
succeeds: there is no serialization and no inventory outcome, the item
store is untouched, and the later update-balance write overwrites the
earlier one, so the final balance records only the second debit. -/
theorem racy_checkout_lost_update (server : List UserRec)
    (items : List Item) (username : String) (cartA cartB : List Item)
    (hA : cartTotal cartA ≤ getUserBalance server username)
    (hB : cartTotal cartB ≤ getUserBalance server username)
    (hu : (server.find? (fun r => r.username == username)).isSome) :
    (racyDoubleCheckout server items username cartA cartB).resA =
      CheckoutResult.orderPlaced ∧
    (racyDoubleCheckout server items username cartA cartB).resB =
      CheckoutResult.orderPlaced ∧
    (racyDoubleCheckout server items username cartA cartB).items = items ∧
    getUserBalance
        (racyDoubleCheckout server items username cartA cartB).serverUsers
        username =
      getUserBalance server username - cartTotal cartB := by
  have hA' : ¬getUserBalance server username < cartTotal cartA :=
    not_lt.mpr hA
  have hB' : ¬getUserBalance server username < cartTotal cartB :=
    not_lt.mpr hB
  unfold racyDoubleCheckout clientCheckout applyWrite
  refine ⟨by simp [hA'], by simp [hB'], by simp [hA', hB'], ?_⟩
  simp only [hA', hB', if_false, if_neg]
  rw [getUserBalance_setUserBalance]
  rw [find?_isSome_setUserBalance]
  exact hu

/-- Witness for C4 amended at the last-unit scenario. -/
theorem racy_checkout_lost_update_witness :
    cartTotal [⟨"mug", "", 10, 1, false, false⟩] ≤
        getUserBalance [⟨"u", "p", 20, false⟩] "u" ∧
    getUserBalance (racyDoubleCheckout [⟨"u", "p", 20, false⟩]
        [⟨"mug", "", 10, 1, false, false⟩] "u"
        [⟨"mug", "", 10, 1, false, false⟩]
        [⟨"mug", "", 10, 1, false, false⟩]).serverUsers "u" =
      getUserBalance [⟨"u", "p", 20, false⟩] "u" -
        cartTotal [⟨"mug", "", 10, 1, false, false⟩] :=
  ⟨by decide,
   (racy_checkout_lost_update [⟨"u", "p", 20, false⟩]
      [⟨"mug", "", 10, 1, false, false⟩] "u"
      [⟨"mug", "", 10, 1, false, false⟩]
      [⟨"mug", "", 10, 1, false, false⟩]
      (by decide) (by decide) (by decide)).2.2.2⟩

/-- C6: in the spec-modelled Ledger, a second commit with the same token
returns the original Order with the state unchanged, and when the token had
no Order row before the first commit, exactly one Order row exists under
that token afterwards. -/
theorem ledger_commit_idempotent (st : LedgerState) (token : Nat)
    (o : Order) (st' : LedgerState)
    (h : Ledger.commit st token = some (o, st')) :
    Ledger.commit st' token = some (o, st') ∧
    (st.orders.lookup token = none → orderRowCount st' token = 1) := by
  unfold Ledger.commit at h
  cases hl : st.orders.lookup token with
  | some o0 =>
      rw [hl] at h
      simp only [Option.some.injEq, Prod.mk.injEq] at h
      obtain ⟨ho, hs⟩ := h
      subst ho
      subst hs
      constructor
      · unfold Ledger.commit
        rw [hl]
      · intro hnone
        exact absurd hnone (by simp)
  | none =>
      rw [hl] at h
      cases hp : st.pending.lookup token with
      | none =>
          rw [hp] at h
          exact absurd h (by simp)
      | some r =>
          rw [hp] at h
          simp only [Option.some.injEq, Prod.mk.injEq] at h
          obtain ⟨ho, hs⟩ := h
          subst ho
          subst hs
          constructor
          · unfold Ledger.commit
            simp
          · intro _
            unfold orderRowCount
            simp only [List.filter_cons, beq_self_eq_true, if_pos,
              List.length_cons]
            rw [filter_key_eq_nil_of_lookup_none hl]
            rfl

/-- Witness for C6: a ledger holding one committed reservation under token
0; committing token 0 again returns the same Order and state, and the token
has exactly one Order row. -/
theorem ledger_commit_idempotent_witness :
    Ledger.commit
        ⟨[("u", 5)], [("mug", 1)], [], [(0, ⟨"u", [("mug", 10)], 10⟩)], 1⟩
        0 =
      some (⟨"u", [("mug", 10)], 10⟩,
        ⟨[("u", 5)], [("mug", 1)], [], [(0, ⟨"u", [("mug", 10)], 10⟩)], 1⟩) ∧
    orderRowCount
        ⟨[("u", 5)], [("mug", 1)], [], [(0, ⟨"u", [("mug", 10)], 10⟩)], 1⟩
        0 = 1 :=
  ⟨(ledger_commit_idempotent
      ⟨[("u", 5)], [("mug", 1)], [(0, ⟨"u", [("mug", 10)]⟩)], [], 1⟩ 0
      ⟨"u", [("mug", 10)], 10⟩
      ⟨[("u", 5)], [("mug", 1)], [], [(0, ⟨"u", [("mug", 10)], 10⟩)], 1⟩
      (by decide)).1,
   (ledger_commit_idempotent
      ⟨[("u", 5)], [("mug", 1)], [(0, ⟨"u", [("mug", 10)]⟩)], [], 1⟩ 0
      ⟨"u", [("mug", 10)], 10⟩
      ⟨[("u", 5)], [("mug", 1)], [], [(0, ⟨"u", [("mug", 10)], 10⟩)], 1⟩
      (by decide)).2 (by decide)⟩

/-- C7 counterexample: the normalizer never lowercases: the unparsable
input ALICE is returned unchanged, not lowercased, so it differs from the
spec-worded normalization. -/
theorem extract_username_no_lowercase_counterexample :
    extractUsername "ALICE" = "ALICE" ∧
    specNormalize "ALICE" = "alice" ∧
    extractUsername "ALICE" ≠ specNormalize "ALICE" := by decide

/-- C7 amended: the normalizer is a total pure function that strips an
at-domain suffix or a backslash-separated domain prefix but does not
lowercase: input with neither separator is returned unchanged.  The three
quoted spellings still all map to the key jo because stripping already
leaves the lowercase jo. -/
theorem extract_username_strips_without_lowercase :
    extractUsername "jo@co.com" = "jo" ∧
    extractUsername "CO\\jo" = "jo" ∧
    extractUsername "jo" = "jo" ∧
    ∀ s : String, jsIncludes s.data '@' = false →
      jsIncludes s.data '\\' = false → extractUsername s = s := by
  refine ⟨by decide, by decide, by decide, ?_⟩
  intro s h1 h2
  obtain ⟨l⟩ := s
  by_cases hd : l.isEmpty
  · have hnil : l = [] := by simpa using hd
    subst hnil
    rfl
  · simp only [extractUsername]
    rw [if_neg (by simpa using hd)]
    rw [if_neg (by simp [h1])]
    rw [if_neg (by simp [h2])]

/-- Witness for C7 amended: mixed-case input with no separator comes back
unchanged, not lowercased. -/
theorem extract_username_strips_without_lowercase_witness :
    jsIncludes "MiXed".data '@' = false ∧
    extractUsername "MiXed" = "MiXed" :=
  ⟨by decide,
   extract_username_strips_without_lowercase.2.2.2 "MiXed"
     (by decide) (by decide)⟩

/-- C8 counterexample: the row alice exists with the right password;
the raw spelling ALICE normalizes to alice under the spec-worded
normalizer, yet login finds no match because the comparison is exact and
case-sensitive with no normalization applied. -/
theorem login_case_sensitive_counterexample :
    specNormalize "ALICE" = "alice" ∧
    loginAttempt [⟨"alice", "pw123", 100, false⟩] "ALICE" "pw123" =
      none := by decide

/-- C8 amended: a login matches a row only when the trimmed raw spelling
equals the stored username exactly and case-sensitively, with the password
also equal; no normalization is applied at login.  The matched record is an
element of the stored list, and the login flow performs no writes, so the
is_admin flag of every row is trivially unchanged by any re-login. -/
theorem login_matches_exact_trimmed_spelling (users : List UserRec)
    (rawUsername password : String) (u : UserRec)
    (h : loginAttempt users rawUsername password = some u) :
    u ∈ users ∧ u.username = jsTrim rawUsername ∧ u.password = password := by
  unfold loginAttempt loginFind at h
  refine ⟨List.mem_of_find?_eq_some h, ?_, ?_⟩
  · have hp := List.find?_some h
    simp only [Bool.and_eq_true, beq_iff_eq] at hp
    exact hp.1
  · have hp := List.find?_some h
    simp only [Bool.and_eq_true, beq_iff_eq] at hp
    exact hp.2

/-- Witness for C8 amended: the one successful concrete login matched a
stored row whose username is exactly the trimmed spelling. -/
theorem login_matches_exact_trimmed_spelling_witness :
    loginAttempt [⟨"alice", "pw123", 100, false⟩] " alice " "pw123" =
      some ⟨"alice", "pw123", 100, false⟩ ∧
    (⟨"alice", "pw123", 100, false⟩ : UserRec).username =
      jsTrim " alice " :=
  ⟨by decide,
   (login_matches_exact_trimmed_spelling [⟨"alice", "pw123", 100, false⟩]
      " alice " "pw123" ⟨"alice", "pw123", 100, false⟩ (by decide)).2.1⟩

/-- C9 counterexample: the admin page loads for eve while the durable row
marks her admin; eve is then demoted in durable storage; a privileged
balance mutation issued afterwards from the loaded page still applies in
full, although the durable admin flag of the caller is false at the time of
the operation. -/
theorem admin_demotion_not_immediate_counterexample :
    adminPageLoad [⟨"eve", "p", 0, true⟩, ⟨"bob", "q", 50, false⟩] "eve" =
      some ⟨"eve"⟩ ∧
    checkAdminDurable
        (setAdminFlag [⟨"eve", "p", 0, true⟩, ⟨"bob", "q", 50, false⟩]
          "eve" false) "eve" = false ∧
    adminMutateSetBalance ⟨"eve"⟩
        (setAdminFlag [⟨"eve", "p", 0, true⟩, ⟨"bob", "q", 50, false⟩]
          "eve" false) "bob" 999 =
      [⟨"eve", "p", 0, false⟩, ⟨"bob", "q", 999, false⟩] := by decide

/-- C9 amended: the admin status is re-verified against the durable row
exactly once, by the page-load guard; a mutation issued from a loaded page
carries no caller identity and applies to the current durable state
unconditionally, whatever the flag of the caller has become meanwhile, so
a mid-session demotion takes effect only at the next page load. -/
theorem admin_check_only_at_page_load (users usersLater : List UserRec)
    (currentUser : String) (sess : AdminSession) (target : String)
    (value : Int) (h : adminPageLoad users currentUser = some sess) :
    checkAdminDurable users currentUser = true ∧
    adminMutateSetBalance sess usersLater target value =
      setUserBalance usersLater target value := by
  constructor
  · unfold adminPageLoad at h
    by_cases hc : checkAdminDurable users currentUser
    · exact hc
    · rw [if_neg hc] at h
      exact absurd h (by simp)
  · rfl

/-- Witness for C9 amended: the loaded page was guarded by the durable flag
at load time, and the later mutation is the bare row update. -/
theorem admin_check_only_at_page_load_witness :
    checkAdminDurable [⟨"eve", "p", 0, true⟩] "eve" = true ∧
    adminMutateSetBalance ⟨"eve"⟩ [⟨"bob", "q", 50, false⟩] "bob" 999 =
      setUserBalance [⟨"bob", "q", 50, false⟩] "bob" 999 :=
  ⟨(admin_check_only_at_page_load [⟨"eve", "p", 0, true⟩]
      [⟨"bob", "q", 50, false⟩] "eve" ⟨"eve"⟩ "bob" 999 (by decide)).1,
   (admin_check_only_at_page_load [⟨"eve", "p", 0, true⟩]
      [⟨"bob", "q", 50, false⟩] "eve" ⟨"eve"⟩ "bob" 999 (by decide)).2⟩

/-- C10 counterexample: login with the submitted username carrying a
leading space succeeds against the row alice, although no record equals
the submitted value: the handler trims the username before comparing. -/
theorem login_trim_counterexample :
    loginAttempt [⟨"alice", "x", 100, false⟩] " alice" "x" =
      some ⟨"alice", "x", 100, false⟩ ∧
    ("alice" : String) ≠ " alice" := by decide

/-- C10 amended: authentication succeeds exactly when the full user list
returned by the users endpoint, plaintext password fields included,
contains a record whose username equals the whitespace-trimmed submitted
username and whose password equals the submitted password exactly and
case-sensitively; the decision is computed on the client over that list. -/
theorem login_success_iff_exact_match_after_trim (users : List UserRec)
    (rawUsername password : String) :
    (loginAttempt users rawUsername password).isSome ↔
      ∃ u ∈ users, u.username = jsTrim rawUsername ∧
        u.password = password := by
  unfold loginAttempt loginFind
  simp [List.find?_isSome, Bool.and_eq_true, beq_iff_eq]

end NesopStore
